import Mathlib

/-!
Verification of the conversation-relay behaviour of `server.py`
(third, uncommented draft, lines 129–192 of the file).

The handler `chat` reads one field `message` from the request body,
validates it with Python truthiness, classifies a string input by the
literal prefix "http", appends a user turn to the process-global
`messages` list, trims that list when its length exceeds 6, calls the
external completion service, and on success appends the assistant turn.
All of this is embedded below as pure functions; the external service
is a parameter of type `List Turn → Except String String`.
-/

/-- Roles of chat turns, as the `role` field in `server.py`. -/
inductive Role where
  | system
  | user
  | assistant
deriving DecidableEq, Repr

/-- One element of a structured (image-request) content list:
`{"type": "text", "text": s}` or `{"type": "image_url", "image_url": {"url": u}}`. -/
inductive ContentPart where
  | text (s : String)
  | imageUrl (url : String)
deriving DecidableEq, Repr

/-- The `content` field of a turn: either a plain string, or the
two-part structured list built for image URLs. -/
inductive Content where
  | plain (s : String)
  | structured (parts : List ContentPart)
deriving DecidableEq, Repr

/-- One entry of the `messages` list, `{"role": ..., "content": ...}`. -/
structure Turn where
  role : Role
  content : Content
deriving DecidableEq, Repr

/-- JSON values, as `data.get('message')` may return any of these
once Flask has parsed the request body. Numbers are modelled as `Int`. -/
inductive JValue where
  | jnull
  | jbool (b : Bool)
  | jnum (n : Int)
  | jstr (s : String)
  | jarr (elems : List JValue)
  | jobj (fields : List (String × JValue))

/-- Python truthiness of a JSON-decoded value, as tested by
`if not user_input` in `server.py`. -/
def jtruthy : JValue → Bool
  | JValue.jnull => false
  | JValue.jbool b => b
  | JValue.jnum n => n != 0
  | JValue.jstr s => s != ""
  | JValue.jarr elems => !elems.isEmpty
  | JValue.jobj fields => !fields.isEmpty

/-- Truthiness of the value of `data.get('message')`: `none` models an
absent field (Python `None`, which is falsy). -/
def truthy : Option JValue → Bool
  | none => false
  | some v => jtruthy v

/-- Whether a JSON value is a string (only strings have `.startswith`). -/
def isStr : JValue → Bool
  | JValue.jstr _ => true
  | _ => false

/-- The error body text of the 400 response in `server.py`. -/
def errNoMessage : String := "No message provided"

/-- The fixed instruction text sent together with an image URL
(`"ما محتوى هذه الصورة؟"` in `server.py`). -/
def imageQuestion : String := "ما محتوى هذه الصورة؟"

/-- Python's `s.startswith(pre)`: character-level prefix test. (Lean's
own `String.startsWith` is the same test phrased on UTF-8 bytes; the
character-level form mirrors Python's code-point semantics directly.) -/
def startswith (s pre : String) : Bool :=
  pre.data.isPrefixOf s.data

/-- Lines 159–165 of `server.py`: if the input starts with `"http"`,
build the two-part structured content, otherwise pass the string through. -/
def classifyContent (s : String) : Content :=
  if startswith s "http" then
    Content.structured [ContentPart.text imageQuestion, ContentPart.imageUrl s]
  else
    Content.plain s

/-- The user turn appended at line 168 of `server.py`. -/
def userTurn (s : String) : Turn :=
  { role := Role.user, content := classifyContent s }

/-- Lines 171–172 of `server.py`:
`if len(messages) > 6: messages = [messages[0]] + messages[-5:]`.
`[messages[0]]` is rendered `msgs.take 1` (equal, since the branch is
only taken on lists of length at least 7) and `messages[-5:]` is
`msgs.drop (msgs.length - 5)` (equal for lists of length at least 5). -/
def trimMessages (msgs : List Turn) : List Turn :=
  if 6 < msgs.length then msgs.take 1 ++ msgs.drop (msgs.length - 5) else msgs

/-- The transcript handed to the external service on input string `s`
from pre-request state `msgs`: the user turn appended, then trimmed
(the state between lines 172 and 175 of `server.py`). -/
def sentTranscript (msgs : List Turn) (s : String) : List Turn :=
  trimMessages (msgs ++ [userTurn s])

/-- Python's `s.strip()`: drop whitespace from both ends, at the
character level. (Python strips the Unicode whitespace class; this form
covers the ASCII whitespace relevant here, mirroring Lean's own
`String.trim` in a kernel-computable way.) -/
def strip (s : String) : String :=
  String.mk (((s.data.dropWhile Char.isWhitespace).reverse.dropWhile
      Char.isWhitespace).reverse)

/-- Outcome of one request to `/chat`:
`ok` is the 200 response `{'reply': ...}`,
`missingInput` the 400 response `{'error': ...}`,
`upstream` the 500 response `{'error': str(e)}` from the except branch,
`crash` the uncaught `AttributeError` raised by `user_input.startswith`
when the value is truthy but not a string (Flask turns it into a
framework-level 500 with no JSON body from this handler). -/
inductive ChatResult where
  | ok (reply : String)
  | missingInput (msg : String)
  | upstream (msg : String)
  | crash
deriving DecidableEq, Repr

/-- HTTP status code of each outcome. -/
def statusOf : ChatResult → Nat
  | ChatResult.ok _ => 200
  | ChatResult.missingInput _ => 400
  | ChatResult.upstream _ => 500
  | ChatResult.crash => 500

/-- The `chat` handler of `server.py` (lines 150–189), over an explicit
pre-request transcript `msgs` and the value `input` of
`data.get('message')`. The external call
`client.chat.completions.create` followed by
`response.choices[0].message.content` is the parameter `svc`: `Except.ok`
carries the first candidate's content, `Except.error` any raised
exception's message. Returns the post-request transcript and the outcome. -/
def chat (svc : List Turn → Except String String) (msgs : List Turn)
    (input : Option JValue) : List Turn × ChatResult :=
  if truthy input = false then
    (msgs, ChatResult.missingInput errNoMessage)
  else
    match input with
    | some (JValue.jstr s) =>
        let msgs2 := trimMessages (msgs ++ [userTurn s])
        match svc msgs2 with
        | Except.ok raw =>
            let bot := strip raw
            (msgs2 ++ [{ role := Role.assistant, content := Content.plain bot }],
             ChatResult.ok bot)
        | Except.error e => (msgs2, ChatResult.upstream e)
    | _ => (msgs, ChatResult.crash)

/-- The fixed system persona turn of lines 144–147 of `server.py`. -/
def systemTurn : Turn :=
  { role := Role.system,
    content := Content.plain
      "أنت صديق ذكي تتحدث العربية وتحب أن تشرح ببساطة وكأنك تتحدث مع صديق، بإجابات قصيرة وواضحة وسريعة." }

/-- Initial value of the global `messages` list (lines 144–147 of
`server.py`): a single system turn with the fixed persona string. -/
def initialMessages : List Turn := [systemTurn]

/-- A sequence of requests against the shared global transcript:
fold `chat` over the list of message-field values, keeping only the
transcript (each request's response is independent of later ones). -/
def runChat (svc : List Turn → Except String String)
    (inputs : List (Option JValue)) (msgs : List Turn) : List Turn :=
  inputs.foldl (fun st i => (chat svc st i).1) msgs

/-! ## Helper lemmas about the trim step -/

/-- The trim step never returns more than 6 turns when given at most 6,
and returns exactly 6 when given more. -/
theorem trimMessages_length (msgs : List Turn) :
    (trimMessages msgs).length = if 6 < msgs.length then 6 else msgs.length := by
  unfold trimMessages
  by_cases h : 6 < msgs.length
  · simp only [h, if_true, List.length_append, List.length_take, List.length_drop]
    omega
  · simp [h]

theorem trimMessages_length_le (msgs : List Turn) :
    (trimMessages msgs).length ≤ 6 ∨ trimMessages msgs = msgs := by
  by_cases h : 6 < msgs.length
  · left; rw [trimMessages_length]; simp [h]
  · right; unfold trimMessages; simp [h]

/-- After the trim step the transcript has at most 6 turns whenever the
untrimmed transcript either exceeded 6 or was already within the bound;
in particular `sentTranscript` is always within the bound when the
pre-request state was. -/
theorem trimMessages_le_six (msgs : List Turn) :
    (trimMessages msgs).length ≤ 6 ∨ (trimMessages msgs).length = msgs.length := by
  rw [trimMessages_length]
  by_cases h : 6 < msgs.length <;> simp [h]

/-- The trim step keeps the head of a nonempty list. -/
theorem trimMessages_head? (msgs : List Turn) :
    (trimMessages msgs).head? = msgs.head? := by
  unfold trimMessages
  by_cases h : 6 < msgs.length
  · simp only [h, if_true]
    match msgs with
    | [] => simp at h
    | t :: rest => simp
  · simp [h]

/-- Trimming a list that ends in `t` yields a list that still ends in `t`. -/
theorem trimMessages_getLast?_concat (xs : List Turn) (t : Turn) :
    (trimMessages (xs ++ [t])).getLast? = some t := by
  unfold trimMessages
  by_cases h : 6 < (xs ++ [t]).length
  · rw [if_pos h]
    have hlen : (xs ++ [t]).length = xs.length + 1 := by simp
    have hle : (xs ++ [t]).length - 5 ≤ xs.length := by omega
    rw [List.drop_append_eq_append_drop]
    have hz : (xs ++ [t]).length - 5 - xs.length = 0 := by omega
    rw [hz]
    simp [List.getLast?_append, List.getLast?_concat]
  · rw [if_neg h]
    exact List.getLast?_concat _

/-- The transcript sent to the external service never exceeds 6 turns:
this is the state immediately after the trim step of an invocation. -/
theorem sentTranscript_length_le_six (msgs : List Turn) (s : String) :
    (sentTranscript msgs s).length ≤ 6 := by
  unfold sentTranscript
  rw [trimMessages_length]
  split <;> omega

/-- From a nonempty pre-request state, the transcript sent to the
external service has at least 2 turns. -/
theorem sentTranscript_two_le_length (msgs : List Turn) (s : String)
    (h : msgs ≠ []) : 2 ≤ (sentTranscript msgs s).length := by
  unfold sentTranscript
  rw [trimMessages_length]
  have h1 : 1 ≤ msgs.length := List.length_pos.mpr h
  have h2 : (msgs ++ [userTurn s]).length = msgs.length + 1 := by simp
  split <;> omega

/-- The transcript sent to the external service ends in the freshly
appended user turn. -/
theorem sentTranscript_getLast? (msgs : List Turn) (s : String) :
    (sentTranscript msgs s).getLast? = some (userTurn s) :=
  trimMessages_getLast?_concat msgs (userTurn s)

/-- Append-then-trim keeps the head of a nonempty pre-request state. -/
theorem sentTranscript_head? (msgs : List Turn) (s : String) (h : msgs ≠ []) :
    (sentTranscript msgs s).head? = msgs.head? := by
  unfold sentTranscript
  rw [trimMessages_head?]
  exact List.head?_append_of_ne_nil msgs h

/-! ## Path lemmas for the `chat` handler -/

/-- A falsy `message` value short-circuits to the 400 response with the
transcript untouched. -/
theorem chat_of_falsy (svc : List Turn → Except String String)
    (msgs : List Turn) (input : Option JValue) (h : truthy input = false) :
    chat svc msgs input = (msgs, ChatResult.missingInput errNoMessage) := by
  unfold chat
  rw [if_pos h]

/-- On a truthy string input, `chat` dispatches on the external
service's answer for `sentTranscript msgs s`. -/
theorem chat_of_str (svc : List Turn → Except String String)
    (msgs : List Turn) (s : String) (h : s ≠ "") :
    chat svc msgs (some (JValue.jstr s)) =
      match svc (sentTranscript msgs s) with
      | Except.ok raw =>
          (sentTranscript msgs s ++
             [{ role := Role.assistant, content := Content.plain (strip raw) }],
           ChatResult.ok (strip raw))
      | Except.error e => (sentTranscript msgs s, ChatResult.upstream e) := by
  have ht : ¬ (truthy (some (JValue.jstr s)) = false) := by
    simp [truthy, jtruthy]
    exact h
  unfold chat
  rw [if_neg ht]
  rfl

/-- A truthy non-string `message` value crashes on `.startswith` before
any transcript mutation. -/
theorem chat_of_nonstr (svc : List Turn → Except String String)
    (msgs : List Turn) (v : JValue) (ht : truthy (some v) = true)
    (hs : isStr v = false) :
    chat svc msgs (some v) = (msgs, ChatResult.crash) := by
  have ht' : ¬ (truthy (some v) = false) := by simp [ht]
  unfold chat
  rw [if_neg ht']
  cases v with
  | jstr s => simp [isStr] at hs
  | jnull => rfl
  | jbool b => rfl
  | jnum n => rfl
  | jarr elems => rfl
  | jobj fields => rfl

/-- Every path of `chat` keeps the head of a nonempty transcript. -/
theorem chat_fst_head? (svc : List Turn → Except String String)
    (msgs : List Turn) (input : Option JValue) (h : msgs ≠ []) :
    ((chat svc msgs input).1).head? = msgs.head? := by
  by_cases ht : truthy input = false
  · rw [chat_of_falsy svc msgs input ht]
  · cases input with
    | none => simp [truthy] at ht
    | some v =>
      cases v with
      | jstr s =>
          by_cases hs : s = ""
          · subst hs; simp [truthy, jtruthy] at ht
          · rw [chat_of_str svc msgs s hs]
            cases hsvc : svc (sentTranscript msgs s) with
            | ok raw =>
                simp only
                have hne : sentTranscript msgs s ≠ [] := by
                  intro hnil
                  have := sentTranscript_two_le_length msgs s h
                  rw [hnil] at this
                  simp at this
                rw [List.head?_append_of_ne_nil _ hne]
                exact sentTranscript_head? msgs s h
            | error e =>
                simp only
                exact sentTranscript_head? msgs s h
      | jnull => simp [truthy, jtruthy] at ht
      | jbool b =>
          rw [chat_of_nonstr svc msgs (JValue.jbool b) (by simpa using ht) rfl]
      | jnum n =>
          rw [chat_of_nonstr svc msgs (JValue.jnum n) (by simpa using ht) rfl]
      | jarr elems =>
          rw [chat_of_nonstr svc msgs (JValue.jarr elems) (by simpa using ht) rfl]
      | jobj fields =>
          rw [chat_of_nonstr svc msgs (JValue.jobj fields) (by simpa using ht) rfl]

/-- Every path of `chat` leaves a nonempty transcript nonempty. -/
theorem chat_fst_ne_nil (svc : List Turn → Except String String)
    (msgs : List Turn) (input : Option JValue) (h : msgs ≠ []) :
    (chat svc msgs input).1 ≠ [] := by
  intro hnil
  have hh := chat_fst_head? svc msgs input h
  rw [hnil] at hh
  cases msgs with
  | nil => exact h rfl
  | cons a rest => simp at hh

/-- Any request sequence preserves the head of a nonempty transcript. -/
theorem runChat_head? (svc : List Turn → Except String String)
    (inputs : List (Option JValue)) (msgs : List Turn) (h : msgs ≠ []) :
    (runChat svc inputs msgs).head? = msgs.head? := by
  induction inputs generalizing msgs with
  | nil => rfl
  | cons i rest ih =>
      have step : runChat svc (i :: rest) msgs = runChat svc rest (chat svc msgs i).1 := rfl
      rw [step, ih _ (chat_fst_ne_nil svc msgs i h)]
      exact chat_fst_head? svc msgs i h

/-- Any request sequence keeps the transcript nonempty. -/
theorem runChat_ne_nil (svc : List Turn → Except String String)
    (inputs : List (Option JValue)) (msgs : List Turn) (h : msgs ≠ []) :
    runChat svc inputs msgs ≠ [] := by
  intro hnil
  have hh := runChat_head? svc inputs msgs h
  rw [hnil] at hh
  cases msgs with
  | nil => exact h rfl
  | cons a rest => simp at hh

/-! ## Claim theorems -/

/-- Claim C1: a request whose `message` field is absent or the empty
string gets the `MissingInput` 400 response, the transcript is returned
unchanged (so its length is unchanged), and no outbound call happens:
the result is the same under every external service. -/
theorem chat_missing_input (svc : List Turn → Except String String)
    (msgs : List Turn) (input : Option JValue)
    (h : input = none ∨ input = some (JValue.jstr "")) :
    chat svc msgs input = (msgs, ChatResult.missingInput errNoMessage) ∧
    statusOf (chat svc msgs input).2 = 400 ∧
    ((chat svc msgs input).1).length = msgs.length ∧
    ∀ svc2, chat svc2 msgs input = chat svc msgs input := by
  have ht : truthy input = false := by
    rcases h with h | h <;> subst h <;> rfl
  refine ⟨chat_of_falsy svc msgs input ht, ?_, ?_, ?_⟩
  · rw [chat_of_falsy svc msgs input ht]
    rfl
  · rw [chat_of_falsy svc msgs input ht]
  · intro svc2
    rw [chat_of_falsy svc msgs input ht, chat_of_falsy svc2 msgs input ht]

theorem chat_missing_input_witness :
    ((none : Option JValue) = none ∨
       (none : Option JValue) = some (JValue.jstr "")) ∧
    chat (fun _ => Except.error "down") initialMessages none =
      (initialMessages, ChatResult.missingInput errNoMessage) :=
  ⟨Or.inl rfl,
   (chat_missing_input (fun _ => Except.error "down") initialMessages none
      (Or.inl rfl)).1⟩

/-- Claim C2: an input string with prefix `"http"` is classified as
structured content of exactly one text part and one image-reference
part carrying the string verbatim; any other input is passed through as
the plain string. The transcript handed to the external service ends in
the user turn carrying exactly that classified content, and `chat` is
determined by the service's answer on that transcript. -/
theorem chat_classification (msgs : List Turn) (s : String) (h : s ≠ "") :
    (startswith s "http" = true →
        classifyContent s =
          Content.structured [ContentPart.text imageQuestion, ContentPart.imageUrl s]) ∧
    (startswith s "http" = false → classifyContent s = Content.plain s) ∧
    (sentTranscript msgs s).getLast? = some (userTurn s) ∧
    ∀ svc, chat svc msgs (some (JValue.jstr s)) =
      match svc (sentTranscript msgs s) with
      | Except.ok raw =>
          (sentTranscript msgs s ++
             [{ role := Role.assistant, content := Content.plain (strip raw) }],
           ChatResult.ok (strip raw))
      | Except.error e => (sentTranscript msgs s, ChatResult.upstream e) := by
  refine ⟨?_, ?_, sentTranscript_getLast? msgs s, ?_⟩
  · intro hs
    unfold classifyContent
    rw [if_pos hs]
  · intro hs
    unfold classifyContent
    rw [hs]
    rfl
  · intro svc
    exact chat_of_str svc msgs s h

theorem chat_classification_witness :
    ("https://example.com/cat.png" ≠ "") ∧
    classifyContent "https://example.com/cat.png" =
      Content.structured [ContentPart.text imageQuestion,
        ContentPart.imageUrl "https://example.com/cat.png"] ∧
    classifyContent "What is the capital of France?" =
      Content.plain "What is the capital of France?" :=
  ⟨by decide,
   (chat_classification initialMessages "https://example.com/cat.png"
      (by decide)).1 (by decide),
   (chat_classification initialMessages "What is the capital of France?"
      (by decide)).2.1 (by decide)⟩

/-- Claim C3: whenever the transcript length exceeds 6, the trim step
collapses it to turn 0 followed by the last 5 turns (6 turns in all). -/
theorem trim_collapse (msgs : List Turn) (h : 6 < msgs.length) :
    ∃ h0 : 0 < msgs.length,
      trimMessages msgs = msgs.get ⟨0, h0⟩ :: msgs.drop (msgs.length - 5) ∧
      (trimMessages msgs).length = 6 := by
  have h0 : 0 < msgs.length := by omega
  refine ⟨h0, ?_, ?_⟩
  · unfold trimMessages
    rw [if_pos h]
    match msgs, h0 with
    | a :: rest, _ => simp
  · rw [trimMessages_length, if_pos h]

/-- A concrete 7-turn transcript used to exercise the trim step. -/
def sevenTurns : List Turn :=
  [userTurn "a", userTurn "b", userTurn "c", userTurn "d",
   userTurn "e", userTurn "f", userTurn "g"]

theorem trim_collapse_witness :
    6 < sevenTurns.length ∧
    ∃ h0 : 0 < sevenTurns.length,
      trimMessages sevenTurns =
        sevenTurns.get ⟨0, h0⟩ :: sevenTurns.drop (sevenTurns.length - 5) ∧
      (trimMessages sevenTurns).length = 6 :=
  ⟨by decide, trim_collapse sevenTurns (by decide)⟩

/-- Claim C4: a 7-turn transcript `[S, t1, t2, t3, t4, t5, t6]` trims to
exactly `[S, t2, t3, t4, t5, t6]`. -/
theorem trim_length_seven (S t1 t2 t3 t4 t5 t6 : Turn) :
    trimMessages [S, t1, t2, t3, t4, t5, t6] = [S, t2, t3, t4, t5, t6] := rfl

/-- Claim C5: along any request sequence starting from the initial
single-system-turn transcript, turn 0 is always the untouched system
turn (whose role is `system`), and the transcript immediately after the
trim step of any invocation — `sentTranscript` — never exceeds 6 turns. -/
theorem chat_window_invariant (svc : List Turn → Except String String)
    (inputs : List (Option JValue)) :
    (runChat svc inputs initialMessages).head? = some systemTurn ∧
    systemTurn.role = Role.system ∧
    ∀ msgs s, (sentTranscript msgs s).length ≤ 6 := by
  have hne : initialMessages ≠ [] := by simp [initialMessages]
  refine ⟨?_, rfl, fun msgs s => sentTranscript_length_le_six msgs s⟩
  rw [runChat_head? svc inputs initialMessages hne]
  rfl

/-- Claim C6: when the external call succeeds with reply `raw`, the
handler strips surrounding whitespace, appends an assistant turn with
exactly the stripped text as the new last turn, and returns the
stripped text with status 200. -/
theorem chat_success (svc : List Turn → Except String String)
    (msgs : List Turn) (s raw : String) (h : s ≠ "")
    (hsvc : svc (sentTranscript msgs s) = Except.ok raw) :
    chat svc msgs (some (JValue.jstr s)) =
      (sentTranscript msgs s ++
         [{ role := Role.assistant, content := Content.plain (strip raw) }],
       ChatResult.ok (strip raw)) ∧
    ((chat svc msgs (some (JValue.jstr s))).1).getLast? =
      some { role := Role.assistant, content := Content.plain (strip raw) } ∧
    statusOf (chat svc msgs (some (JValue.jstr s))).2 = 200 := by
  have hc := chat_of_str svc msgs s h
  rw [hsvc] at hc
  refine ⟨hc, ?_, ?_⟩
  · rw [hc]
    exact List.getLast?_concat _
  · rw [hc]
    rfl

/-- An external service that always answers `"  hello  "`. -/
def svcHello : List Turn → Except String String :=
  fun _ => Except.ok "  hello  "

theorem chat_success_witness :
    ("hi" ≠ "") ∧
    svcHello (sentTranscript initialMessages "hi") = Except.ok "  hello  " ∧
    chat svcHello initialMessages (some (JValue.jstr "hi")) =
      (sentTranscript initialMessages "hi" ++
         [{ role := Role.assistant, content := Content.plain "hello" }],
       ChatResult.ok "hello") :=
  ⟨by decide, rfl,
   (chat_success svcHello initialMessages "hi" "  hello  " (by decide) rfl).1⟩

/-- Claim C7: when the external call fails, no assistant turn is
appended — the post-request transcript is exactly the one sent — the
result is the `UpstreamError` 500 response carrying the failure
description, and the transcript's last element is the user turn this
invocation appended. -/
theorem chat_failure (svc : List Turn → Except String String)
    (msgs : List Turn) (s e : String) (h : s ≠ "")
    (hsvc : svc (sentTranscript msgs s) = Except.error e) :
    chat svc msgs (some (JValue.jstr s)) =
      (sentTranscript msgs s, ChatResult.upstream e) ∧
    statusOf (chat svc msgs (some (JValue.jstr s))).2 = 500 ∧
    ((chat svc msgs (some (JValue.jstr s))).1).getLast? = some (userTurn s) := by
  have hc := chat_of_str svc msgs s h
  rw [hsvc] at hc
  refine ⟨hc, ?_, ?_⟩
  · rw [hc]
    rfl
  · rw [hc]
    exact sentTranscript_getLast? msgs s

/-- An external service that always fails with message `"boom"`. -/
def svcBoom : List Turn → Except String String :=
  fun _ => Except.error "boom"

theorem chat_failure_witness :
    ("hi there" ≠ "") ∧
    chat svcBoom initialMessages (some (JValue.jstr "hi there")) =
      (sentTranscript initialMessages "hi there", ChatResult.upstream "boom") ∧
    ((chat svcBoom initialMessages (some (JValue.jstr "hi there"))).1).getLast? =
      some (userTurn "hi there") :=
  ⟨by decide,
   (chat_failure svcBoom initialMessages "hi there" "boom" (by decide) rfl).1,
   (chat_failure svcBoom initialMessages "hi there" "boom" (by decide) rfl).2.2⟩

/-- Claim C8: the 400 `MissingInput` response is produced exactly when
the `message` value is falsy under Python truthiness (absent, null,
empty string, numeric zero, `false`, or an empty array/object) —
strictly more values than absent-or-empty-string — and every truthy
non-string value makes the handler crash on the `.startswith` attribute
access before any append, leaving the transcript unchanged there too. -/
theorem chat_falsy_iff (svc : List Turn → Except String String)
    (msgs : List Turn) (input : Option JValue) :
    ((chat svc msgs input).2 = ChatResult.missingInput errNoMessage ↔
       truthy input = false) ∧
    (∀ v, input = some v → truthy input = true → isStr v = false →
       chat svc msgs input = (msgs, ChatResult.crash)) := by
  constructor
  · constructor
    · intro hres
      cases hx : truthy input with
      | false => rfl
      | true =>
        exfalso
        cases input with
        | none => simp [truthy] at hx
        | some v =>
          cases v with
          | jstr s =>
              have hs : s ≠ "" := by
                intro he
                subst he
                simp [truthy, jtruthy] at hx
              rw [chat_of_str svc msgs s hs] at hres
              cases hsvc : svc (sentTranscript msgs s) <;>
                rw [hsvc] at hres <;> simp at hres
          | jnull => simp [truthy, jtruthy] at hx
          | jbool b =>
              rw [chat_of_nonstr svc msgs (JValue.jbool b) hx rfl] at hres
              simp at hres
          | jnum n =>
              rw [chat_of_nonstr svc msgs (JValue.jnum n) hx rfl] at hres
              simp at hres
          | jarr elems =>
              rw [chat_of_nonstr svc msgs (JValue.jarr elems) hx rfl] at hres
              simp at hres
          | jobj fields =>
              rw [chat_of_nonstr svc msgs (JValue.jobj fields) hx rfl] at hres
              simp at hres
    · intro hf
      rw [chat_of_falsy svc msgs input hf]
  · intro v hv ht hs
    subst hv
    exact chat_of_nonstr svc msgs v ht hs

/-- An external service that always answers `"ok"`. -/
def svcEcho : List Turn → Except String String :=
  fun _ => Except.ok "ok"

theorem chat_falsy_iff_witness :
    (chat svcEcho initialMessages (some (JValue.jnum 0))).2 =
      ChatResult.missingInput errNoMessage ∧
    chat svcEcho initialMessages (some (JValue.jarr [JValue.jnull])) =
      (initialMessages, ChatResult.crash) :=
  ⟨(chat_falsy_iff svcEcho initialMessages (some (JValue.jnum 0))).1.mpr rfl,
   (chat_falsy_iff svcEcho initialMessages
      (some (JValue.jarr [JValue.jnull]))).2
     (JValue.jarr [JValue.jnull]) rfl rfl rfl⟩

/-- Claim C9: in any invocation that reaches the external call — a
truthy string input, from any state reachable from the initial
transcript — the transcript at the moment of the call has between 2 and
6 turns and ends with the user turn appended by that invocation. -/
theorem chat_precall_state (svc : List Turn → Except String String)
    (inputs : List (Option JValue)) (s : String) (h : s ≠ "") :
    2 ≤ (sentTranscript (runChat svc inputs initialMessages) s).length ∧
    (sentTranscript (runChat svc inputs initialMessages) s).length ≤ 6 ∧
    (sentTranscript (runChat svc inputs initialMessages) s).getLast? =
      some (userTurn s) := by
  have hne : initialMessages ≠ [] := by simp [initialMessages]
  have hrne := runChat_ne_nil svc inputs initialMessages hne
  exact ⟨sentTranscript_two_le_length _ s hrne,
         sentTranscript_length_le_six _ s,
         sentTranscript_getLast? _ s⟩

theorem chat_precall_state_witness :
    ("hello" ≠ "") ∧
    (2 ≤ (sentTranscript (runChat svcEcho [] initialMessages) "hello").length ∧
     (sentTranscript (runChat svcEcho [] initialMessages) "hello").length ≤ 6 ∧
     (sentTranscript (runChat svcEcho [] initialMessages) "hello").getLast? =
       some (userTurn "hello")) :=
  ⟨by decide, chat_precall_state svcEcho [] "hello" (by decide)⟩

/-- Claim C10: on upstream failure the transcript mutation is exactly
append-then-trim: with at most 5 pre-request turns the post state is
the pre state plus the user turn; with more than 5 the trim keeps
turn 0 and the last 5 turns of the appended list, so the post state has
exactly 6 turns — on a 7-turn pre state a failed request shrinks the
transcript. Nothing else changes on failure. -/
theorem chat_failure_frame (svc : List Turn → Except String String)
    (msgs : List Turn) (s e : String) (h : s ≠ "")
    (hsvc : svc (sentTranscript msgs s) = Except.error e) :
    (chat svc msgs (some (JValue.jstr s))).1 =
      trimMessages (msgs ++ [userTurn s]) ∧
    (msgs.length ≤ 5 →
       (chat svc msgs (some (JValue.jstr s))).1 = msgs ++ [userTurn s]) ∧
    (5 < msgs.length →
       (chat svc msgs (some (JValue.jstr s))).1 =
         (msgs ++ [userTurn s]).take 1 ++
           (msgs ++ [userTurn s]).drop (msgs.length + 1 - 5) ∧
       (chat svc msgs (some (JValue.jstr s))).1.length = 6) := by
  have hc := chat_of_str svc msgs s h
  rw [hsvc] at hc
  have h1 : (chat svc msgs (some (JValue.jstr s))).1 = sentTranscript msgs s := by
    rw [hc]
  refine ⟨h1, ?_, ?_⟩
  · intro hle
    rw [h1]
    unfold sentTranscript trimMessages
    rw [if_neg (by simp only [List.length_append, List.length_singleton]; omega)]
  · intro hlt
    constructor
    · rw [h1]
      unfold sentTranscript trimMessages
      rw [if_pos (by simp only [List.length_append, List.length_singleton]; omega)]
      simp
    · rw [h1]
      unfold sentTranscript
      rw [trimMessages_length,
        if_pos (by simp only [List.length_append, List.length_singleton]; omega)]

theorem chat_failure_frame_witness :
    ("x" ≠ "") ∧
    svcBoom (sentTranscript sevenTurns "x") = Except.error "boom" ∧
    (chat svcBoom sevenTurns (some (JValue.jstr "x"))).1.length = 6 ∧
    (chat svcBoom sevenTurns (some (JValue.jstr "x"))).1.length <
      sevenTurns.length :=
  ⟨by decide, rfl,
   ((chat_failure_frame svcBoom sevenTurns "x" "boom" (by decide) rfl).2.2
      (by decide)).2,
   by
     rw [((chat_failure_frame svcBoom sevenTurns "x" "boom" (by decide) rfl).2.2
        (by decide)).2]
     decide⟩
